import Mathlib

/-!
# Assertions over the standard testing handle (package `assert`)

A shallow embedding of `assert.go`: the two severity markers `E` and `F`, the
dispatcher `fail`, and the four assertions `Equal`, `NoErr`, `IsErr`, `AsErr`.

* The handle `TB` is an interface in the source.  It is embedded as a recording
  handle: its state is the sequence of method calls it has received, plus two
  flags that say whether its `Errorf` / `Fatalf` hand control back to the
  caller (`testing.T`: `Errorf` returns, `Fatalf` stops the goroutine).
* The source delegates its checks to `reflect.DeepEqual`, `errors.Is` and
  `errors.As`.  These are embedded after the Go standard library on a fragment
  of Go values that is described at each definition.
* A call either returns, stops the test (a halting report), or panics (the
  unchecked type assertion `customFormatAndArgs[0].(string)`, or a comparison
  `==` inside `errors.Is` that panics at run time).
-/

set_option autoImplicit false

namespace Assert

/-! ## Go values -/

/-- Go values of the fragment on which `Equal` is studied: booleans, `int`s,
strings, function values (`code = none` is the nil function, `some c` a function
identified by its code pointer), nil and non-nil slices, and structs.  Composite
values carry the name of their Go type.  Slices are represented by their
contents; floats, maps, pointers and cyclic values are outside the fragment. -/
inductive Value where
  | bool (b : Bool)
  | int (n : Int)
  | str (s : String)
  | func (typ : String) (code : Option Nat)
  | nilSlice (typ : String)
  | slice (typ : String) (elems : List Value)
  | struct (typ : String) (fields : List Value)

mutual
/-- The function `reflect.DeepEqual` on the fragment, after its documentation:
values of distinct types are never deeply equal; function values are deeply
equal only if both are nil; slices are deeply equal when both are nil or both
are non-nil with the same length and deeply equal entries; structs when their
corresponding fields are deeply equal; other values when they are `==`.
Slices being given by their contents, the shortcut of `DeepEqual` for two
slices that share their first entry is not represented; it changes the result
only for a slice that holds a non-nil function and is compared with itself. -/
def deepEqual : Value → Value → Bool
  | .bool a, .bool b => a == b
  | .int a, .int b => a == b
  | .str a, .str b => a == b
  | .func t1 c1, .func t2 c2 => t1 == t2 && c1.isNone && c2.isNone
  | .nilSlice t1, .nilSlice t2 => t1 == t2
  | .slice t1 xs, .slice t2 ys => t1 == t2 && deepEqualList xs ys
  | .struct t1 xs, .struct t2 ys => t1 == t2 && deepEqualList xs ys
  | _, _ => false
/-- Entry-wise deep equality of two sequences of the same length. -/
def deepEqualList : List Value → List Value → Bool
  | [], [] => true
  | x :: xs, y :: ys => deepEqual x y && deepEqualList xs ys
  | _, _ => false
end

mutual
/-- Whether a value contains no non-nil function value. -/
def funcFree : Value → Bool
  | .func _ c => c.isNone
  | .slice _ xs => funcFreeList xs
  | .struct _ xs => funcFreeList xs
  | _ => true
/-- Whether no value of the sequence contains a non-nil function value. -/
def funcFreeList : List Value → Bool
  | [] => true
  | x :: xs => funcFree x && funcFreeList xs
end

/-! ## Go errors -/

/-- The identity of a non-nil error value as the interface comparison `==` sees
it: its dynamic type and its dynamic value (the address, for pointer types). -/
structure Key where
  typ : String
  val : Nat
deriving DecidableEq

/-- The declared type of the slot an `errors.As` target points to: a concrete
error type, or an interface type given by the concrete types implementing it. -/
inductive GoType where
  | named (name : String)
  | iface (name : String) (impls : List String)

/-- The name of a slot type. -/
def GoType.name : GoType → String
  | .named n => n
  | .iface n _ => n

/-- Whether a value of dynamic type `typ` is assignable to a slot type
(`reflectlite.TypeOf(err).AssignableTo(targetType)`). -/
def assignableTo (typ : String) : GoType → Bool
  | .named n => typ == n
  | .iface _ impls => impls.contains typ

/-- One link of a cause chain: a non-nil error value without its cause.
`comparable` says whether its dynamic type is comparable.  `boxed` is `some d`
when the value, of a comparable struct or array type, holds in an interface-typed
field a dynamic value of the uncomparable type `d` (the first such field);
`key.val` then stands for what `==` compares before that field.  `msg` is the
result of `Error()`, `isM` is its optional method `Is(error) bool` (applied to
the target), `asM` its optional method `As(any) bool`, applied to the type and
the current content of the slot the target points to and returning the new
content of the slot together with the method result. -/
structure Link where
  key : Key
  comparable : Bool
  boxed : Option String
  msg : String
  isM : Option (Key → Bool)
  asM : Option (GoType → Option Key → Option Key × Bool)

/-- A Go `error`: the nil error, or a non-nil error given by its first link and
the error its `Unwrap() error` method returns (`nil` when it has no such method
or the method returns nil).  Errors with a method `Unwrap() []error` are
outside the fragment. -/
inductive GoError where
  | nil
  | link (hd : Link) (cause : GoError)

/-- The links of the cause chain of an error, the error itself first. -/
def GoError.links : GoError → List Link
  | .nil => []
  | .link hd cause => hd :: cause.links

/-- The comparison `l == t` of two non-nil interface values; `none` is the
run-time panic.  Values of distinct dynamic types are unequal.  Values of one
type are compared in field order and the comparison stops at the first
difference; when it reaches interface-typed fields that hold dynamic values of
one and the same uncomparable type, it panics. -/
def Link.eq (l t : Link) : Option Bool :=
  if l.key.typ = t.key.typ then
    if l.key.val = t.key.val then
      match l.boxed, t.boxed with
      | none, none => some true
      | some d1, some d2 => if d1 = d2 then none else some false
      | _, _ => some false
    else some false
  else some false

/-- The loop of `errors.Is` on a non-nil target: a link matches when the target
type is comparable and the link `==` the target, or when the link has an `Is`
method that accepts the target; otherwise the loop unwraps, and it stops with
false at a nil cause.  The result is `none` when the comparison panics. -/
def is (target : Link) : GoError → Option Bool
  | .nil => some false
  | .link hd cause =>
    match (if target.comparable then hd.eq target else some false) with
    | none => none
    | some true => some true
    | some false =>
      if (match hd.isM with
        | some f => f target.key
        | none => false) then some true
      else is target cause

/-- The function `errors.Is`: when `err` or `target` is nil the result is
`err == target`; otherwise the chain of `err` is searched for a match.  The
result is `none` when a comparison of the search panics. -/
def errorsIs : GoError → GoError → Option Bool
  | .nil, .nil => some true
  | .nil, .link _ _ => some false
  | .link _ _, .nil => some false
  | .link hd cause, .link t _ => is t (.link hd cause)

/-- A valid `errors.As` target: a non-nil pointer (at address `addr`) to a slot
of declared type `elem`, with the current content `val` of the slot
(`none` is the zero state, `some k` the error value of identity `k`). -/
structure Target where
  addr : Nat
  elem : GoType
  val : Option Key

/-- The loop of `errors.As`: the first link assignable to the slot type is
written to the slot; a link with an `As` method that accepts the target also
ends the search with true (the method is responsible for the slot); otherwise
the loop unwraps, and it stops with false at a nil cause. -/
def as (elem : GoType) : GoError → Option Key → Option Key × Bool
  | .nil, cur => (cur, false)
  | .link hd cause, cur =>
    if assignableTo hd.key.typ elem then (some hd.key, true)
    else match hd.asM with
      | some f =>
        if (f elem cur).2 then (f elem cur) else as elem cause (f elem cur).1
      | none => as elem cause cur

/-- The function `errors.As` on a valid target: its result and the target
afterwards.  A nil `err` gives false. -/
def errorsAs (err : GoError) (target : Target) : Bool × Target :=
  ((as target.elem err target.val).2, { target with val := (as target.elem err target.val).1 })

/-! ## The handle and the dispatcher -/

/-- What is passed as a Go `any` in `formatAndArgs` and in the report arguments:
a value, an error, or a pointer to an error slot. -/
inductive Any where
  | val (v : Value)
  | err (e : GoError)
  | ptr (addr : Nat) (elem : GoType)

/-- A method call received by a handle. -/
inductive Call where
  | Helper
  | Errorf (format : String) (args : List Any)
  | Fatalf (format : String) (args : List Any)

/-- The handle `TB`: the calls it has received, oldest first, and whether its
`Errorf` / `Fatalf` stop the calling test instead of returning. -/
structure TB where
  calls : List Call
  errorfHalts : Bool
  fatalfHalts : Bool

/-- How a call ended: it returned, it stopped the test, or it panicked. -/
inductive Status where
  | returned
  | halted
  | panicked
deriving DecidableEq

/-- The handle after a call and how the call ended. -/
structure Outcome where
  tb : TB
  status : Status

/-- The method `t.Helper()`. -/
def TB.Helper (t : TB) : TB :=
  { t with calls := t.calls ++ [Call.Helper] }

/-- The method `t.Errorf(format, args...)`. -/
def TB.Errorf (t : TB) (format : String) (args : List Any) : Outcome :=
  ⟨{ t with calls := t.calls ++ [Call.Errorf format args] },
    if t.errorfHalts then Status.halted else Status.returned⟩

/-- The method `t.Fatalf(format, args...)`. -/
def TB.Fatalf (t : TB) (format : String) (args : List Any) : Outcome :=
  ⟨{ t with calls := t.calls ++ [Call.Fatalf format args] },
    if t.fatalfHalts then Status.halted else Status.returned⟩

/-- The two implementations of the interface `Param`. -/
inductive Param where
  | E
  | F
deriving DecidableEq

/-- The method `method` of `E` (returns `t.Errorf`) and of `F` (returns `t.Fatalf`). -/
def Param.method : Param → TB → String → List Any → Outcome
  | .E, t => t.Errorf
  | .F, t => t.Fatalf

/-- The function `fail`: marks the helper frame, replaces format and arguments by
the override when one is given (panicking when its first element is not a
`string`), and calls the reporting method selected by the marker. -/
def fail (T : Param) (t : TB) (customFormatAndArgs : List Any) (format : String)
    (args : List Any) : Outcome :=
  match customFormatAndArgs with
  | [] => T.method t.Helper format args
  | Any.val (Value.str s) :: rest => T.method t.Helper s rest
  | _ :: _ => ⟨t.Helper, Status.panicked⟩

/-! ## The assertions -/

/-- The assertion `Equal`. -/
def Equal (T : Param) (t : TB) (got want : Value) (formatAndArgs : List Any) : Outcome :=
  if !deepEqual got want then
    fail T t.Helper formatAndArgs "\ngot\t%v\nwant\t%v" [Any.val got, Any.val want]
  else ⟨t.Helper, Status.returned⟩

/-- The assertion `NoErr`. -/
def NoErr (T : Param) (t : TB) (err : GoError) (formatAndArgs : List Any) : Outcome :=
  match err with
  | .link hd cause =>
    fail T t.Helper formatAndArgs "\ngot\t%v\nwant\tno error" [Any.err (.link hd cause)]
  | .nil => ⟨t.Helper, Status.returned⟩

/-- The assertion `IsErr`; a panic of `errors.Is` ends the call after the helper mark. -/
def IsErr (T : Param) (t : TB) (err target : GoError) (formatAndArgs : List Any) : Outcome :=
  match errorsIs err target with
  | none => ⟨t.Helper, Status.panicked⟩
  | some ok =>
    if !ok then
      fail T t.Helper formatAndArgs "\ngot\t%v\nwant\t%v" [Any.err err, Any.err target]
    else ⟨t.Helper, Status.returned⟩

/-- The assertion `AsErr`, with the target afterwards. -/
def AsErr (T : Param) (t : TB) (err : GoError) (target : Target)
    (formatAndArgs : List Any) : Outcome × Target :=
  if !(errorsAs err target).1 then
    (fail T t.Helper formatAndArgs "\ngot\t%T\nwant\t%T"
      [Any.err err, Any.ptr target.addr target.elem], (errorsAs err target).2)
  else (⟨t.Helper, Status.returned⟩, (errorsAs err target).2)

/-! ## Running a test body -/

/-- The statements of a test body run in order on the handle; a statement that
does not return (it stopped the test or panicked) ends the run, and no later
statement is executed. -/
def runStmts : List (TB → Outcome) → TB → Outcome
  | [], t => ⟨t, Status.returned⟩
  | s :: rest, t =>
    match (s t).status with
    | Status.returned => runStmts rest (s t).tb
    | _ => s t

/-- An override is well formed when it is empty or starts with a `string`. -/
def wellFormedOverride : List Any → Bool
  | [] => true
  | Any.val (Value.str _) :: _ => true
  | _ :: _ => false

/-- The reporting calls (`Errorf` and `Fatalf`) among the calls of a handle. -/
def reports (cs : List Call) : List Call :=
  cs.filter fun c =>
    match c with
    | Call.Helper => false
    | _ => true

/-- The failing calls of the four assertions with marker `T` and override `fa`,
as statements of a test body. -/
inductive FailingCall (T : Param) (fa : List Any) : (TB → Outcome) → Prop where
  | equal (got want : Value) (h : deepEqual got want = false) :
    FailingCall T fa (fun t => Equal T t got want fa)
  | noErr (hd : Link) (cause : GoError) :
    FailingCall T fa (fun t => NoErr T t (.link hd cause) fa)
  | isErr (err target : GoError) (h : errorsIs err target = some false) :
    FailingCall T fa (fun t => IsErr T t err target fa)
  | asErr (err : GoError) (target : Target) (h : (errorsAs err target).1 = false) :
    FailingCall T fa (fun t => (AsErr T t err target fa).1)

/-- The passing calls of the four assertions with marker `T` and override `fa`. -/
inductive PassingCall (T : Param) (fa : List Any) : (TB → Outcome) → Prop where
  | equal (got want : Value) (h : deepEqual got want = true) :
    PassingCall T fa (fun t => Equal T t got want fa)
  | noErr : PassingCall T fa (fun t => NoErr T t .nil fa)
  | isErr (err target : GoError) (h : errorsIs err target = some true) :
    PassingCall T fa (fun t => IsErr T t err target fa)
  | asErr (err : GoError) (target : Target) (h : (errorsAs err target).1 = true) :
    PassingCall T fa (fun t => (AsErr T t err target fa).1)

/-! ## Cause chains -/

/-- Two links are the same error value: same dynamic type and same content. -/
def Link.same (l t : Link) : Bool :=
  decide (l.key = t.key) && decide (l.boxed = t.boxed)

/-- The target appears in the cause chain of `err`, `err` itself included: the
two are the same error, or some link of the chain is identical to the target. -/
def inChain : GoError → GoError → Bool
  | .nil, .nil => true
  | .nil, .link _ _ => false
  | .link _ _, .nil => false
  | .link hd cause, .link t _ => (GoError.link hd cause).links.any fun l => l.same t

/-- Whether a link matches a non-nil target for `errors.Is`: it is `==` to a
target of comparable type, or it has an `Is` method that accepts the target. -/
def Link.matchesIs (l target : Link) : Bool :=
  (target.comparable && decide (l.eq target = some true)) ||
    (match l.isM with
    | some f => f target.key
    | none => false)

/-- No comparison that `errors.Is` may evaluate on `err` and `target` panics: the
target is nil or of a type that is not comparable (nothing is compared), or
every link of the chain of `err` can be compared with the target. -/
def comparisonsDefined : GoError → GoError → Bool
  | _, .nil => true
  | err, .link t _ => !t.comparable || err.links.all fun l => (l.eq t).isSome

/-- What `errors.Is` looks for, after its documentation: both errors are nil, or
both are non-nil and some link of the chain of `err` matches the target. -/
def matchesTarget : GoError → GoError → Bool
  | .nil, .nil => true
  | .nil, .link _ _ => false
  | .link _ _, .nil => false
  | .link hd cause, .link t _ => (GoError.link hd cause).links.any fun l => l.matchesIs t

/-- Whether the dynamic type of an error is comparable (the nil error is). -/
def GoError.comparable : GoError → Bool
  | .nil => true
  | .link hd _ => hd.comparable

/-- Whether no link of the chain defines a method `Is`. -/
def noIsMethod (err : GoError) : Bool :=
  err.links.all fun l => l.isM.isNone

/-- Whether no link of the chain defines a method `As`. -/
def noAsMethod (err : GoError) : Bool :=
  err.links.all fun l => l.asM.isNone

/-- The first link of a chain that is assignable to a slot type. -/
def firstAssignable (elem : GoType) (err : GoError) : Option Link :=
  err.links.find? fun l => assignableTo l.key.typ elem

/-! ## Text forms -/

mutual
/-- The text form of a value under the verb `%v`. -/
def fmtValue : Value → String
  | .bool b => if b then "true" else "false"
  | .int n => toString n
  | .str s => s
  | .func _ none => "<nil>"
  | .func _ (some c) => "0x" ++ String.mk (Nat.toDigits 16 c)
  | .nilSlice _ => "[]"
  | .slice _ xs => "[" ++ " ".intercalate (fmtValues xs) ++ "]"
  | .struct _ xs => "\x7b" ++ " ".intercalate (fmtValues xs) ++ "\x7d"
/-- The text forms of the entries of a sequence. -/
def fmtValues : List Value → List String
  | [] => []
  | x :: xs => fmtValue x :: fmtValues xs
end

/-- The text form of an argument under `%v`; pointers are not covered. -/
def fmtAny : Any → Option String
  | .val v => some (fmtValue v)
  | .err .nil => some "<nil>"
  | .err (.link hd _) => some hd.msg
  | .ptr _ _ => none

/-- The text form of an argument under `%T`: the name of its dynamic type. -/
def typeName : Any → String
  | .val (.bool _) => "bool"
  | .val (.int _) => "int"
  | .val (.str _) => "string"
  | .val (.func typ _) => typ
  | .val (.nilSlice typ) => typ
  | .val (.slice typ _) => typ
  | .val (.struct typ _) => typ
  | .err .nil => "<nil>"
  | .err (.link hd _) => hd.key.typ
  | .ptr _ elem => "*" ++ elem.name

/-- The formatting of `fmt.Sprintf` for the verbs `%v`, `%T` and `%%`; `none`
outside this fragment (other verbs, missing or extra arguments). -/
def sprintfChars : List Char → List Any → Option (List Char)
  | [], [] => some []
  | [], _ :: _ => none
  | '%' :: 'v' :: cs, a :: rest =>
    match fmtAny a, sprintfChars cs rest with
    | some x, some y => some (x.toList ++ y)
    | _, _ => none
  | '%' :: 'T' :: cs, a :: rest =>
    match sprintfChars cs rest with
    | some y => some ((typeName a).toList ++ y)
    | none => none
  | '%' :: '%' :: cs, rest =>
    match sprintfChars cs rest with
    | some y => some ('%' :: y)
    | none => none
  | '%' :: _, _ => none
  | c :: cs, rest =>
    match sprintfChars cs rest with
    | some y => some (c :: y)
    | none => none

/-- The message a handle builds from a report call with `fmt.Sprintf`. -/
def sprintf (format : String) (args : List Any) : Option String :=
  (sprintfChars format.toList args).map String.mk

/-! ## Concrete scenarios -/

/-- A fresh handle that behaves like `testing.T`: `Errorf` returns, `Fatalf` stops the test. -/
def freshT : TB := ⟨[], false, true⟩

/-- The slice `[]int{1, 2, 3}`. -/
def ints123 : Value := .slice "[]int" [.int 1, .int 2, .int 3]

/-- The slice `[]int{1, 2}`. -/
def ints12 : Value := .slice "[]int" [.int 1, .int 2]

/-- A non-nil function value. -/
def someFunc : Value := .func "func()" (some 4768160)

/-- A not-found error of pointer type `*NotFound`, without methods `Is`, `As`, `Unwrap`. -/
def notFound : Link := ⟨⟨"*NotFound", 1⟩, true, none, "not found", none, none⟩

/-- The error `notFound` wrapped once, as `fmt.Errorf("lookup: %w", err)` does. -/
def wrappedNotFound : GoError :=
  .link ⟨⟨"*fmt.wrapError", 2⟩, true, none, "lookup: not found", none, none⟩
    (.link notFound .nil)

/-- A three-level chain: A wraps B, B wraps C, with C the error `notFound`. -/
def chainABC : GoError :=
  .link ⟨⟨"*fmt.wrapError", 3⟩, true, none, "handler: lookup: not found", none, none⟩
    wrappedNotFound

/-- A slot of type `*NotFound` in its zero state. -/
def notFoundSlot : Target := ⟨100, .named "*NotFound", none⟩

/-- A slot of an unrelated type `*Timeout` in its zero state. -/
def timeoutSlot : Target := ⟨101, .named "*Timeout", none⟩

/-- An error of a slice type, which is not comparable, without methods `Is`, `As`, `Unwrap`. -/
def sliceErr : GoError :=
  .link ⟨⟨"ErrList", 7⟩, false, none, "two errors", none, none⟩ .nil

/-- An error of the comparable struct type `BoxErr`, whose field of type `any`
holds a slice. -/
def boxErr : GoError :=
  .link ⟨⟨"BoxErr", 8⟩, true, some "[]int", "boxed", none, none⟩ .nil

/-- An error whose `Is` method accepts every target of type `*NotFound`. -/
def statusErr : GoError :=
  .link ⟨⟨"*StatusErr", 4⟩, true, none, "status 404",
    some (fun k => k.typ == "*NotFound"), none⟩ .nil

/-- An error whose `As` method fills a `*NotFound` slot with a value of its own making. -/
def convertibleErr : GoError :=
  .link ⟨⟨"*StatusErr", 5⟩, true, none, "status 404", none,
    some (fun elem cur =>
      match elem with
      | .named "*NotFound" => (some ⟨"*NotFound", 6⟩, true)
      | _ => (cur, false))⟩ .nil

/-! ## The dispatcher -/

theorem method_E (t : TB) (f : String) (a : List Any) :
    (Param.method .E t f a).tb.calls = t.calls ++ [Call.Errorf f a] := rfl

theorem method_F (t : TB) (f : String) (a : List Any) :
    (Param.method .F t f a).tb.calls = t.calls ++ [Call.Fatalf f a] := rfl

theorem fail_wellFormed (T : Param) (t : TB) (custom : List Any) (format : String)
    (args : List Any) (h : wellFormedOverride custom = true) :
    ∃ f a, fail T t custom format args = Param.method T t.Helper f a := by
  match custom, h with
  | [], _ => exact ⟨format, args, rfl⟩
  | Any.val (Value.str s) :: rest, _ => exact ⟨s, rest, rfl⟩

theorem failing_eq_fail (T : Param) (fa : List Any) (s : TB → Outcome)
    (hs : FailingCall T fa s) (t : TB) :
    ∃ format args, s t = fail T t.Helper fa format args := by
  cases hs with
  | equal got want h => exact ⟨_, _, by simp only [Equal, h]; rfl⟩
  | noErr hd cause => exact ⟨_, _, rfl⟩
  | isErr err target h => exact ⟨_, _, by simp only [IsErr, h]; rfl⟩
  | asErr err target h => exact ⟨_, _, by simp only [AsErr, h]; rfl⟩

theorem failing_reports (T : Param) (fa : List Any) (s : TB → Outcome)
    (hs : FailingCall T fa s) (hfa : wellFormedOverride fa = true) (t : TB) :
    ∃ f a, s t = Param.method T t.Helper.Helper f a := by
  obtain ⟨format, args, h⟩ := failing_eq_fail T fa s hs t
  obtain ⟨f, a, h2⟩ := fail_wellFormed T t.Helper fa format args hfa
  exact ⟨f, a, h.trans h2⟩

theorem passing_eq (T : Param) (fa : List Any) (s : TB → Outcome)
    (hs : PassingCall T fa s) (t : TB) : s t = ⟨t.Helper, Status.returned⟩ := by
  cases hs with
  | equal got want h => simp [Equal, h]
  | noErr => rfl
  | isErr err target h => simp [IsErr, h]
  | asErr err target h => simp [AsErr, h]

theorem fail_ne_pass (T : Param) (t : TB) (fa : List Any) (format : String) (args : List Any) :
    fail T t.Helper fa format args ≠ ⟨t.Helper, Status.returned⟩ := by
  intro h
  have hlen := congrArg (fun o => o.tb.calls.length) h
  match fa with
  | [] => cases T <;> simp [fail, Param.method, TB.Errorf, TB.Fatalf, TB.Helper] at hlen
  | Any.val (Value.str s) :: rest =>
    cases T <;> simp [fail, Param.method, TB.Errorf, TB.Fatalf, TB.Helper] at hlen
  | Any.val (Value.bool _) :: _ => simp [fail, TB.Helper] at hlen
  | Any.val (Value.int _) :: _ => simp [fail, TB.Helper] at hlen
  | Any.val (Value.func _ _) :: _ => simp [fail, TB.Helper] at hlen
  | Any.val (Value.nilSlice _) :: _ => simp [fail, TB.Helper] at hlen
  | Any.val (Value.slice _ _) :: _ => simp [fail, TB.Helper] at hlen
  | Any.val (Value.struct _ _) :: _ => simp [fail, TB.Helper] at hlen
  | Any.err _ :: _ => simp [fail, TB.Helper] at hlen
  | Any.ptr _ _ :: _ => simp [fail, TB.Helper] at hlen

/-- C1: `fail` first marks the helper frame and then invokes exactly one
reporting operation of the handle, `Errorf` (never `Fatalf`) for the marker `E`
and `Fatalf` (never `Errorf`) for the marker `F`, for every handle, default
format and arguments and every well-formed or empty override; every failing call
of `Equal`, `NoErr`, `IsErr` and `AsErr` does the same after its own helper mark. -/
theorem fail_marks_helper_then_reports_once (t : TB) (custom : List Any) (format : String)
    (args : List Any) (h : wellFormedOverride custom = true) :
    (∃ f a, (fail .E t custom format args).tb.calls
        = t.calls ++ [Call.Helper, Call.Errorf f a]) ∧
    (∃ f a, (fail .F t custom format args).tb.calls
        = t.calls ++ [Call.Helper, Call.Fatalf f a]) ∧
    (∀ s, FailingCall .E custom s →
      ∃ f a, (s t).tb.calls = t.calls ++ [Call.Helper, Call.Helper, Call.Errorf f a]) ∧
    (∀ s, FailingCall .F custom s →
      ∃ f a, (s t).tb.calls = t.calls ++ [Call.Helper, Call.Helper, Call.Fatalf f a]) := by
  refine ⟨?_, ?_, ?_, ?_⟩
  · obtain ⟨f, a, e⟩ := fail_wellFormed .E t custom format args h
    exact ⟨f, a, by rw [e, method_E]; simp [TB.Helper]⟩
  · obtain ⟨f, a, e⟩ := fail_wellFormed .F t custom format args h
    exact ⟨f, a, by rw [e, method_F]; simp [TB.Helper]⟩
  · intro s hs
    obtain ⟨f, a, e⟩ := failing_reports .E custom s hs h t
    exact ⟨f, a, by rw [e, method_E]; simp [TB.Helper]⟩
  · intro s hs
    obtain ⟨f, a, e⟩ := failing_reports .F custom s hs h t
    exact ⟨f, a, by rw [e, method_F]; simp [TB.Helper]⟩

theorem fail_marks_helper_then_reports_once_witness :
    wellFormedOverride [Any.val (.str "lookup %v"), Any.val (.int 7)] = true ∧
    ((∃ f a, (fail .E freshT [Any.val (.str "lookup %v"), Any.val (.int 7)] "d" []).tb.calls
        = freshT.calls ++ [Call.Helper, Call.Errorf f a]) ∧
    (∃ f a, (fail .F freshT [Any.val (.str "lookup %v"), Any.val (.int 7)] "d" []).tb.calls
        = freshT.calls ++ [Call.Helper, Call.Fatalf f a]) ∧
    (∀ s, FailingCall .E [Any.val (.str "lookup %v"), Any.val (.int 7)] s →
      ∃ f a, (s freshT).tb.calls
        = freshT.calls ++ [Call.Helper, Call.Helper, Call.Errorf f a]) ∧
    (∀ s, FailingCall .F [Any.val (.str "lookup %v"), Any.val (.int 7)] s →
      ∃ f a, (s freshT).tb.calls
        = freshT.calls ++ [Call.Helper, Call.Helper, Call.Fatalf f a])) :=
  ⟨rfl, fail_marks_helper_then_reports_once freshT
    [Any.val (.str "lookup %v"), Any.val (.int 7)] "d" [] rfl⟩

/-- C2: a failing assertion called with an override whose first element is the
string `s` hands exactly the format `s` and the arguments `formatAndArgs[1:]` to
the reporting operation of its marker, and nothing of the default template or
the default arguments; with an empty `formatAndArgs` it hands over exactly its
default template and default arguments. -/
theorem override_replaces_default (T : Param) (t : TB) (s : String) (rest : List Any) :
    (∀ got want, deepEqual got want = false →
      Equal T t got want (Any.val (.str s) :: rest) = Param.method T t.Helper.Helper s rest ∧
      Equal T t got want []
        = Param.method T t.Helper.Helper "\ngot\t%v\nwant\t%v" [Any.val got, Any.val want]) ∧
    (∀ hd cause,
      NoErr T t (.link hd cause) (Any.val (.str s) :: rest)
        = Param.method T t.Helper.Helper s rest ∧
      NoErr T t (.link hd cause) []
        = Param.method T t.Helper.Helper "\ngot\t%v\nwant\tno error"
            [Any.err (.link hd cause)]) ∧
    (∀ err target, errorsIs err target = some false →
      IsErr T t err target (Any.val (.str s) :: rest) = Param.method T t.Helper.Helper s rest ∧
      IsErr T t err target []
        = Param.method T t.Helper.Helper "\ngot\t%v\nwant\t%v" [Any.err err, Any.err target]) ∧
    (∀ err target, (errorsAs err target).1 = false →
      (AsErr T t err target (Any.val (.str s) :: rest)).1
        = Param.method T t.Helper.Helper s rest ∧
      (AsErr T t err target []).1
        = Param.method T t.Helper.Helper "\ngot\t%T\nwant\t%T"
            [Any.err err, Any.ptr target.addr target.elem]) ∧
    (∀ f a, (Param.method T t.Helper.Helper f a).tb.calls
      = t.calls ++ [Call.Helper, Call.Helper,
          match T with
          | .E => Call.Errorf f a
          | .F => Call.Fatalf f a]) := by
  refine ⟨?_, ?_, ?_, ?_, ?_⟩
  · intro got want h
    constructor <;> (simp only [Equal, h]; rfl)
  · intro hd cause
    exact ⟨rfl, rfl⟩
  · intro err target h
    constructor <;> (simp only [IsErr, h]; rfl)
  · intro err target h
    constructor <;> (simp only [AsErr, h]; rfl)
  · intro f a
    cases T <;> simp [Param.method, TB.Errorf, TB.Fatalf, TB.Helper]

theorem override_replaces_default_witness :
    deepEqual ints12 ints123 = false ∧
    Equal .E freshT ints12 ints123 [Any.val (.str "case %d"), Any.val (.int 7)]
      = Param.method .E freshT.Helper.Helper "case %d" [Any.val (.int 7)] ∧
    Equal .E freshT ints12 ints123 []
      = Param.method .E freshT.Helper.Helper "\ngot\t%v\nwant\t%v"
          [Any.val ints12, Any.val ints123] :=
  ⟨rfl, (override_replaces_default .E freshT "case %d" [Any.val (.int 7)]).1 ints12 ints123 rfl⟩

/-! ## Continue and abort -/

theorem runStmts_returned (s : TB → Outcome) (rest : List (TB → Outcome)) (t : TB)
    (h : (s t).status = Status.returned) : runStmts (s :: rest) t = runStmts rest (s t).tb := by
  simp [runStmts, h]

theorem runStmts_halted (s : TB → Outcome) (rest : List (TB → Outcome)) (t : TB)
    (h : (s t).status = Status.halted) : runStmts (s :: rest) t = s t := by
  simp [runStmts, h]

theorem failing_E_returns (fa : List Any) (s : TB → Outcome) (t : TB)
    (hs : FailingCall .E fa s) (hfa : wellFormedOverride fa = true)
    (hE : t.errorfHalts = false) :
    ∃ f a, s t = ⟨{ t with calls := t.calls ++ [Call.Helper, Call.Helper, Call.Errorf f a] },
      Status.returned⟩ := by
  obtain ⟨f, a, e⟩ := failing_reports .E fa s hs hfa t
  refine ⟨f, a, ?_⟩
  rw [e]
  simp [Param.method, TB.Errorf, TB.Helper, hE]

theorem failing_F_halts (fa : List Any) (s : TB → Outcome) (t : TB)
    (hs : FailingCall .F fa s) (hfa : wellFormedOverride fa = true)
    (hF : t.fatalfHalts = true) :
    ∃ f a, s t = ⟨{ t with calls := t.calls ++ [Call.Helper, Call.Helper, Call.Fatalf f a] },
      Status.halted⟩ := by
  obtain ⟨f, a, e⟩ := failing_reports .F fa s hs hfa t
  refine ⟨f, a, ?_⟩
  rw [e]
  simp [Param.method, TB.Fatalf, TB.Helper, hF]

theorem runStmts_not_returned (s : TB → Outcome) (rest : List (TB → Outcome)) (t : TB)
    (h : (s t).status ≠ Status.returned) : runStmts (s :: rest) t = s t := by
  cases hst : (s t).status with
  | returned => exact absurd hst h
  | halted => simp [runStmts, hst]
  | panicked => simp [runStmts, hst]

theorem failing_F_never_returns (fa : List Any) (s : TB → Outcome) (t : TB)
    (hs : FailingCall .F fa s) (hF : t.fatalfHalts = true) :
    (s t).status ≠ Status.returned := by
  obtain ⟨format, args, e⟩ := failing_eq_fail .F fa s hs t
  rw [e]
  match fa with
  | [] => simp [fail, Param.method, TB.Fatalf, TB.Helper, hF]
  | Any.val (Value.str _) :: _ => simp [fail, Param.method, TB.Fatalf, TB.Helper, hF]
  | Any.val (Value.bool _) :: _ => simp [fail]
  | Any.val (Value.int _) :: _ => simp [fail]
  | Any.val (Value.func _ _) :: _ => simp [fail]
  | Any.val (Value.nilSlice _) :: _ => simp [fail]
  | Any.val (Value.slice _ _) :: _ => simp [fail]
  | Any.val (Value.struct _ _) :: _ => simp [fail]
  | Any.err _ :: _ => simp [fail]
  | Any.ptr _ _ :: _ => simp [fail]

/-- C3, as the code has it: on a handle whose `Errorf` returns and whose
`Fatalf` does not return, a failing assertion with marker `E` and an override
that is empty or starts with a string returns normally, so the statements after
it run (a second such failing `E` assertion is reported too, in order); a
failing assertion with marker `F` does not return, whatever its override, so no
statement after it runs (an assertion after it is never reported), and with an
override that is empty or starts with a string it stops the test through
`Fatalf`. -/
theorem continue_runs_on_abort_stops (t : TB) (fa fa2 : List Any) (s s2 : TB → Outcome)
    (rest : List (TB → Outcome)) (hE : t.errorfHalts = false) (hF : t.fatalfHalts = true) :
    (wellFormedOverride fa = true → FailingCall .E fa s →
      (s t).status = Status.returned ∧ runStmts (s :: rest) t = runStmts rest (s t).tb) ∧
    (wellFormedOverride fa = true → wellFormedOverride fa2 = true →
      FailingCall .E fa s → FailingCall .E fa2 s2 →
      ∃ f a f2 a2, (runStmts [s, s2] t).status = Status.returned ∧
        (runStmts [s, s2] t).tb.calls = t.calls ++
          [Call.Helper, Call.Helper, Call.Errorf f a,
            Call.Helper, Call.Helper, Call.Errorf f2 a2]) ∧
    (FailingCall .F fa s →
      (s t).status ≠ Status.returned ∧ runStmts (s :: rest) t = s t) ∧
    (wellFormedOverride fa = true → FailingCall .F fa s →
      (s t).status = Status.halted ∧
      ∃ f a, (runStmts (s :: rest) t).tb.calls
        = t.calls ++ [Call.Helper, Call.Helper, Call.Fatalf f a]) := by
  refine ⟨?_, ?_, ?_, ?_⟩
  · intro hfa hs
    obtain ⟨f, a, e⟩ := failing_E_returns fa s t hs hfa hE
    have hst : (s t).status = Status.returned := by rw [e]
    exact ⟨hst, runStmts_returned s rest t hst⟩
  · intro hfa hfa2 hs hs2
    obtain ⟨f, a, e⟩ := failing_E_returns fa s t hs hfa hE
    have hst : (s t).status = Status.returned := by rw [e]
    obtain ⟨f2, a2, e2⟩ := failing_E_returns fa2 s2 (s t).tb hs2 hfa2 (by rw [e]; exact hE)
    have hst2 : (s2 (s t).tb).status = Status.returned := by rw [e2]
    refine ⟨f, a, f2, a2, ?_, ?_⟩
    · rw [runStmts_returned s [s2] t hst, runStmts_returned s2 [] _ hst2]
      rfl
    · rw [runStmts_returned s [s2] t hst, runStmts_returned s2 [] _ hst2, e2, e]
      simp [runStmts]
  · intro hs
    have hne := failing_F_never_returns fa s t hs hF
    exact ⟨hne, runStmts_not_returned s rest t hne⟩
  · intro hfa hs
    obtain ⟨f, a, e⟩ := failing_F_halts fa s t hs hfa hF
    have hst : (s t).status = Status.halted := by rw [e]
    refine ⟨hst, f, a, ?_⟩
    rw [runStmts_halted s rest t hst, e]

theorem continue_runs_on_abort_stops_witness :
    (freshT.errorfHalts = false ∧ freshT.fatalfHalts = true ∧
      wellFormedOverride [] = true ∧ deepEqual ints12 ints123 = false) ∧
    (∃ f a f2 a2,
      (runStmts [fun t => Equal .E t ints12 ints123 [], fun t => NoErr .E t wrappedNotFound []]
        freshT).status = Status.returned ∧
      (runStmts [fun t => Equal .E t ints12 ints123 [], fun t => NoErr .E t wrappedNotFound []]
        freshT).tb.calls = freshT.calls ++
          [Call.Helper, Call.Helper, Call.Errorf f a,
            Call.Helper, Call.Helper, Call.Errorf f2 a2]) ∧
    ((fun t => Equal .F t ints12 ints123 []) freshT).status = Status.halted ∧
    runStmts [fun t => Equal .F t ints12 ints123 [], fun t => NoErr .E t wrappedNotFound []]
        freshT
      = (fun t => Equal .F t ints12 ints123 []) freshT :=
  ⟨⟨rfl, rfl, rfl, rfl⟩,
    (continue_runs_on_abort_stops freshT [] [] (fun t => Equal .E t ints12 ints123 [])
      (fun t => NoErr .E t wrappedNotFound []) [] rfl rfl).2.1 rfl rfl
      (FailingCall.equal ints12 ints123 rfl) (FailingCall.noErr _ _),
    ((continue_runs_on_abort_stops freshT [] [] (fun t => Equal .F t ints12 ints123 [])
      (fun t => NoErr .E t wrappedNotFound []) [fun t => NoErr .E t wrappedNotFound []]
      rfl rfl).2.2.2 rfl (FailingCall.equal ints12 ints123 rfl)).1,
    ((continue_runs_on_abort_stops freshT [] [] (fun t => Equal .F t ints12 ints123 [])
      (fun t => NoErr .E t wrappedNotFound []) [fun t => NoErr .E t wrappedNotFound []]
      rfl rfl).2.2.1 (FailingCall.equal ints12 ints123 rfl)).2⟩

/-- C3 fails as stated: a failing `Equal` with marker `E` and the override `[42]`
panics instead of returning, so the assertion after it in the test body is never
run and nothing at all is reported. -/
theorem continue_panics_on_malformed_override :
    (Equal .E freshT ints12 ints123 [Any.val (.int 42)]).status = Status.panicked ∧
    runStmts [fun t => Equal .E t ints12 ints123 [Any.val (.int 42)],
        fun t => NoErr .E t wrappedNotFound []] freshT
      = ⟨freshT.Helper.Helper, Status.panicked⟩ ∧
    reports (runStmts [fun t => Equal .E t ints12 ints123 [Any.val (.int 42)],
        fun t => NoErr .E t wrappedNotFound []] freshT).tb.calls = [] :=
  ⟨rfl, rfl, rfl⟩

/-! ## The no-error check -/

/-- C8, as the code has it: `NoErr` on the nil error passes for every handle,
marker and `formatAndArgs`: it invokes neither `Errorf` nor `Fatalf`.  On a
non-nil error it fails, whatever `formatAndArgs` is: it never passes and always
goes through `fail`; with a `formatAndArgs` that is empty or starts with a
string it invokes the reporting operation of its marker exactly once, and with
no override the report carries the default template with the single argument
`err` (with an override that starts with a string, that string and the rest). -/
theorem noErr_nil_passes_nonnil_fails (T : Param) (t : TB) :
    (∀ fa, NoErr T t .nil fa = ⟨t.Helper, Status.returned⟩ ∧
      reports (NoErr T t .nil fa).tb.calls = reports t.calls) ∧
    (∀ hd cause fa,
      NoErr T t (.link hd cause) fa
        = fail T t.Helper fa "\ngot\t%v\nwant\tno error" [Any.err (.link hd cause)] ∧
      NoErr T t (.link hd cause) fa ≠ ⟨t.Helper, Status.returned⟩) ∧
    (∀ hd cause fa, wellFormedOverride fa = true →
      ∃ f a, NoErr T t (.link hd cause) fa = Param.method T t.Helper.Helper f a ∧
        reports (NoErr T t (.link hd cause) fa).tb.calls = reports t.calls ++
          [match T with
            | .E => Call.Errorf f a
            | .F => Call.Fatalf f a]) ∧
    (∀ hd cause,
      NoErr T t (.link hd cause) []
        = Param.method T t.Helper.Helper "\ngot\t%v\nwant\tno error"
            [Any.err (.link hd cause)] ∧
      reports (NoErr T t (.link hd cause) []).tb.calls = reports t.calls ++
        [match T with
          | .E => Call.Errorf "\ngot\t%v\nwant\tno error" [Any.err (.link hd cause)]
          | .F => Call.Fatalf "\ngot\t%v\nwant\tno error" [Any.err (.link hd cause)]]) ∧
    (∀ hd cause s rest,
      reports (NoErr T t (.link hd cause) (Any.val (.str s) :: rest)).tb.calls
        = reports t.calls ++
          [match T with
            | .E => Call.Errorf s rest
            | .F => Call.Fatalf s rest]) := by
  refine ⟨?_, ?_, ?_, ?_, ?_⟩
  · intro fa
    exact ⟨rfl, by simp [NoErr, TB.Helper, reports]⟩
  · intro hd cause fa
    exact ⟨rfl, fail_ne_pass T t fa _ _⟩
  · intro hd cause fa hfa
    obtain ⟨f, a, e⟩ := failing_reports T fa _ (FailingCall.noErr hd cause) hfa t
    have e2 : NoErr T t (.link hd cause) fa = Param.method T t.Helper.Helper f a := e
    refine ⟨f, a, e2, ?_⟩
    rw [e2]
    cases T <;> simp [Param.method, TB.Errorf, TB.Fatalf, TB.Helper, reports]
  · intro hd cause
    refine ⟨rfl, ?_⟩
    cases T <;>
      simp [NoErr, fail, Param.method, TB.Errorf, TB.Fatalf, TB.Helper, reports]
  · intro hd cause s rest
    cases T <;>
      simp [NoErr, fail, Param.method, TB.Errorf, TB.Fatalf, TB.Helper, reports]

theorem noErr_nil_passes_nonnil_fails_witness :
    wellFormedOverride [Any.val (.str "lookup %d"), Any.val (.int 7)] = true ∧
    ∃ f a, NoErr .F freshT (.link notFound .nil) [Any.val (.str "lookup %d"), Any.val (.int 7)]
        = Param.method .F freshT.Helper.Helper f a ∧
      reports (NoErr .F freshT (.link notFound .nil)
        [Any.val (.str "lookup %d"), Any.val (.int 7)]).tb.calls
        = reports freshT.calls ++ [Call.Fatalf f a] :=
  ⟨rfl, (noErr_nil_passes_nonnil_fails .F freshT).2.2.1 notFound .nil
    [Any.val (.str "lookup %d"), Any.val (.int 7)] rfl⟩

/-- C8 fails as stated: `NoErr` on a non-nil error with an override whose first
element is the nil error, not a string, panics and invokes no reporting
operation at all. -/
theorem noErr_nonnil_malformed_override_not_reported :
    NoErr .F freshT (.link notFound .nil) [Any.err .nil]
      = ⟨freshT.Helper.Helper, Status.panicked⟩ ∧
    reports (NoErr .F freshT (.link notFound .nil) [Any.err .nil]).tb.calls = [] :=
  ⟨rfl, rfl⟩

/-! ## Passing and failing calls -/

/-- C9, as the code has it: a passing call of `Equal`, `NoErr`, `IsErr` or
`AsErr` returns after exactly one helper mark on the handle and invokes no
reporting operation, whatever `formatAndArgs` was supplied. -/
theorem passing_call_only_marks_helper (T : Param) (fa : List Any) (s : TB → Outcome)
    (t : TB) (hs : PassingCall T fa s) :
    s t = ⟨t.Helper, Status.returned⟩ ∧
    (s t).tb.calls = t.calls ++ [Call.Helper] ∧
    reports (s t).tb.calls = reports t.calls := by
  rw [passing_eq T fa s hs t]
  exact ⟨rfl, rfl, by simp [TB.Helper, reports]⟩

theorem passing_call_only_marks_helper_witness :
    deepEqual ints123 ints123 = true ∧
    (Equal .F freshT ints123 ints123 [Any.val (.int 3)] = ⟨freshT.Helper, Status.returned⟩ ∧
    (Equal .F freshT ints123 ints123 [Any.val (.int 3)]).tb.calls
      = freshT.calls ++ [Call.Helper] ∧
    reports (Equal .F freshT ints123 ints123 [Any.val (.int 3)]).tb.calls
      = reports freshT.calls) :=
  ⟨rfl, passing_call_only_marks_helper .F [Any.val (.int 3)]
    (fun t => Equal .F t ints123 ints123 [Any.val (.int 3)]) freshT
    (PassingCall.equal ints123 ints123 rfl)⟩

/-- C9 fails as stated: the passing call `NoErr(t, nil)` on a fresh handle leaves
the handle with one recorded operation, the helper mark, where it had none. -/
theorem passing_call_changes_handle :
    (NoErr .E freshT .nil []).tb.calls = [Call.Helper] ∧
    (NoErr .E freshT .nil []).tb.calls ≠ freshT.calls := by
  refine ⟨rfl, ?_⟩
  intro h
  exact absurd (congrArg List.length h) (by decide)

/-- C10, as the code has it: for every handle, marker and every override that
is empty or starts with a string, a failing call of `Equal`, `NoErr`, `IsErr` or
`AsErr` invokes the reporting operation of its marker exactly once. -/
theorem failing_call_reports_once (T : Param) (fa : List Any) (s : TB → Outcome) (t : TB)
    (hfa : wellFormedOverride fa = true) (hs : FailingCall T fa s) :
    ∃ f a, s t = Param.method T t.Helper.Helper f a ∧
      reports (s t).tb.calls = reports t.calls ++
        [match T with
          | .E => Call.Errorf f a
          | .F => Call.Fatalf f a] := by
  obtain ⟨f, a, e⟩ := failing_reports T fa s hs hfa t
  refine ⟨f, a, e, ?_⟩
  rw [e]
  cases T <;> simp [Param.method, TB.Errorf, TB.Fatalf, TB.Helper, reports]

theorem failing_call_reports_once_witness :
    wellFormedOverride [] = true ∧ errorsIs wrappedNotFound statusErr = some false ∧
    ∃ f a, (fun t => IsErr .E t wrappedNotFound statusErr []) freshT
        = Param.method .E freshT.Helper.Helper f a ∧
      reports ((fun t => IsErr .E t wrappedNotFound statusErr []) freshT).tb.calls
        = reports freshT.calls ++ [Call.Errorf f a] :=
  ⟨rfl, rfl, failing_call_reports_once .E [] (fun t => IsErr .E t wrappedNotFound statusErr [])
    freshT rfl (FailingCall.isErr wrappedNotFound statusErr rfl)⟩

/-- C10 fails as stated: a failing `NoErr` called with an override whose first
element is not a string panics after the helper marks and reports nothing. -/
theorem failing_call_malformed_override_not_reported :
    NoErr .E freshT wrappedNotFound [Any.val (.int 42)]
      = ⟨freshT.Helper.Helper, Status.panicked⟩ ∧
    reports (NoErr .E freshT wrappedNotFound [Any.val (.int 42)]).tb.calls = [] :=
  ⟨rfl, rfl⟩

/-! ## The equality check -/

mutual
theorem deepEqual_refl (a : Value) (h : funcFree a = true) : deepEqual a a = true := by
  cases a with
  | bool b => simp [deepEqual]
  | int n => simp [deepEqual]
  | str s => simp [deepEqual]
  | func typ code => simpa [deepEqual, funcFree] using h
  | nilSlice typ => simp [deepEqual]
  | slice typ xs =>
    simp only [funcFree] at h
    simp [deepEqual, deepEqualList_refl xs h]
  | struct typ xs =>
    simp only [funcFree] at h
    simp [deepEqual, deepEqualList_refl xs h]
theorem deepEqualList_refl (xs : List Value) (h : funcFreeList xs = true) :
    deepEqualList xs xs = true := by
  cases xs with
  | nil => simp [deepEqualList]
  | cons x xs =>
    simp only [funcFreeList, Bool.and_eq_true] at h
    simp [deepEqualList, deepEqual_refl x h.1, deepEqualList_refl xs h.2]
end

mutual
theorem eq_of_deepEqual (a b : Value) (h : deepEqual a b = true) : a = b := by
  cases a <;> cases b <;>
    simp only [deepEqual, Bool.and_eq_true, beq_iff_eq, reduceCtorEq, Bool.false_eq_true] at h
  case bool.bool => rw [h]
  case int.int => rw [h]
  case str.str => rw [h]
  case func.func t1 c1 t2 c2 =>
    obtain ⟨⟨h1, h2⟩, h3⟩ := h
    cases c1 <;> cases c2 <;> simp_all
  case nilSlice.nilSlice => rw [h]
  case slice.slice t1 xs t2 ys => rw [h.1, eq_of_deepEqualList xs ys h.2]
  case struct.struct t1 xs t2 ys => rw [h.1, eq_of_deepEqualList xs ys h.2]
theorem eq_of_deepEqualList (xs ys : List Value) (h : deepEqualList xs ys = true) :
    xs = ys := by
  cases xs <;> cases ys <;>
    simp only [deepEqualList, Bool.and_eq_true, Bool.false_eq_true] at h
  case nil.nil => rfl
  case cons.cons x xs y ys => rw [eq_of_deepEqual x y h.1, eq_of_deepEqualList xs ys h.2]
end

theorem sprintf_got_want (a b : Value) :
    sprintf "\ngot\t%v\nwant\t%v" [Any.val a, Any.val b]
      = some ("\ngot\t" ++ fmtValue a ++ "\nwant\t" ++ fmtValue b) := by
  have h : ("\ngot\t%v\nwant\t%v" : String).toList
      = ['\n', 'g', 'o', 't', '\t', '%', 'v', '\n', 'w', 'a', 'n', 't', '\t', '%', 'v'] := rfl
  simp only [sprintf, h, sprintfChars, fmtAny, Option.map]
  congr 1
  apply String.ext
  simp [String.toList]

/-- C4, as the code has it: for every value `a` of the fragment that contains no
non-nil function value, `Equal(t, a, a)` passes: it returns after its helper
mark and invokes neither `Errorf` nor `Fatalf`, whatever the marker, the handle
and `formatAndArgs`. -/
theorem equal_reflexive_without_func (T : Param) (t : TB) (a : Value) (fa : List Any)
    (h : funcFree a = true) :
    Equal T t a a fa = ⟨t.Helper, Status.returned⟩ ∧
    reports (Equal T t a a fa).tb.calls = reports t.calls := by
  have e : Equal T t a a fa = ⟨t.Helper, Status.returned⟩ := by
    simp [Equal, deepEqual_refl a h]
  rw [e]
  exact ⟨rfl, by simp [TB.Helper, reports]⟩

theorem equal_reflexive_without_func_witness :
    funcFree ints123 = true ∧
    (Equal .E freshT ints123 ints123 [] = ⟨freshT.Helper, Status.returned⟩ ∧
    reports (Equal .E freshT ints123 ints123 []).tb.calls = reports freshT.calls) :=
  ⟨rfl, equal_reflexive_without_func .E freshT ints123 [] rfl⟩

/-- C4 fails as stated: a non-nil function value is not deeply equal to itself,
so `Equal(t, f, f)` reports through `Errorf`. -/
theorem equal_not_reflexive_on_func :
    deepEqual someFunc someFunc = false ∧
    (Equal .E freshT someFunc someFunc []).tb.calls
      = [Call.Helper, Call.Helper,
          Call.Errorf "\ngot\t%v\nwant\t%v" [Any.val someFunc, Any.val someFunc]] :=
  ⟨rfl, rfl⟩

/-- C5, as the code has it: when `a` and `b` have the same contents (they are
structurally equal, as two instances of one value are) and hold no non-nil
function value, `Equal(t, a, b)` passes and reports nothing; when they differ in
some field or element it fails and, with no override, reports exactly once,
with the default template and the arguments got, want in that order, so that
the message holds the text forms of both.  `[1 2 3]` against `[1 2 3]` passes;
`[1 2]` against `[1 2 3]` fails with the message made of "got", "[1 2]",
"want", "[1 2 3]". -/
theorem equal_passes_on_equal_contents_fails_on_difference (T : Param) (t : TB)
    (a b : Value) :
    (a = b → funcFree a = true → ∀ fa,
      Equal T t a b fa = ⟨t.Helper, Status.returned⟩ ∧
      reports (Equal T t a b fa).tb.calls = reports t.calls) ∧
    (a ≠ b →
      Equal T t a b []
        = Param.method T t.Helper.Helper "\ngot\t%v\nwant\t%v" [Any.val a, Any.val b] ∧
      reports (Equal T t a b []).tb.calls = reports t.calls ++
        [match T with
          | .E => Call.Errorf "\ngot\t%v\nwant\t%v" [Any.val a, Any.val b]
          | .F => Call.Fatalf "\ngot\t%v\nwant\t%v" [Any.val a, Any.val b]] ∧
      sprintf "\ngot\t%v\nwant\t%v" [Any.val a, Any.val b]
        = some ("\ngot\t" ++ fmtValue a ++ "\nwant\t" ++ fmtValue b)) ∧
    Equal T t ints123 ints123 [] = ⟨t.Helper, Status.returned⟩ ∧
    reports (Equal T t ints12 ints123 []).tb.calls = reports t.calls ++
      [match T with
        | .E => Call.Errorf "\ngot\t%v\nwant\t%v" [Any.val ints12, Any.val ints123]
        | .F => Call.Fatalf "\ngot\t%v\nwant\t%v" [Any.val ints12, Any.val ints123]] ∧
    sprintf "\ngot\t%v\nwant\t%v" [Any.val ints12, Any.val ints123]
      = some "\ngot\t[1 2]\nwant\t[1 2 3]" := by
  have hfail : ∀ x y : Value, deepEqual x y = false →
      Equal T t x y []
        = Param.method T t.Helper.Helper "\ngot\t%v\nwant\t%v" [Any.val x, Any.val y] ∧
      reports (Equal T t x y []).tb.calls = reports t.calls ++
        [match T with
          | .E => Call.Errorf "\ngot\t%v\nwant\t%v" [Any.val x, Any.val y]
          | .F => Call.Fatalf "\ngot\t%v\nwant\t%v" [Any.val x, Any.val y]] := by
    intro x y hxy
    have e : Equal T t x y []
        = Param.method T t.Helper.Helper "\ngot\t%v\nwant\t%v" [Any.val x, Any.val y] := by
      simp only [Equal, hxy]
      rfl
    refine ⟨e, ?_⟩
    rw [e]
    cases T <;> simp [Param.method, TB.Errorf, TB.Fatalf, TB.Helper, reports]
  refine ⟨?_, ?_, ?_, ?_, rfl⟩
  · intro hab hff fa
    subst hab
    have e : Equal T t a a fa = ⟨t.Helper, Status.returned⟩ := by
      simp [Equal, deepEqual_refl a hff]
    rw [e]
    exact ⟨rfl, by simp [TB.Helper, reports]⟩
  · intro hne
    have hd : deepEqual a b = false := by
      cases hab : deepEqual a b with
      | false => rfl
      | true => exact absurd (eq_of_deepEqual a b hab) hne
    exact ⟨(hfail a b hd).1, (hfail a b hd).2, sprintf_got_want a b⟩
  · have h : deepEqual ints123 ints123 = true := rfl
    simp [Equal, h]
  · exact (hfail ints12 ints123 rfl).2

theorem equal_passes_on_equal_contents_fails_on_difference_witness :
    (funcFree (.struct "Point" [.int 1, .nilSlice "[]int"]) = true ∧
      Equal .E freshT (.struct "Point" [.int 1, .nilSlice "[]int"])
        (.struct "Point" [.int 1, .nilSlice "[]int"]) [] = ⟨freshT.Helper, Status.returned⟩) ∧
    ((Value.slice "[]int" [] ≠ Value.nilSlice "[]int") ∧
      reports (Equal .F freshT (.slice "[]int" []) (.nilSlice "[]int") []).tb.calls
        = reports freshT.calls ++
          [Call.Fatalf "\ngot\t%v\nwant\t%v"
            [Any.val (.slice "[]int" []), Any.val (.nilSlice "[]int")]]) :=
  ⟨⟨rfl, ((equal_passes_on_equal_contents_fails_on_difference .E freshT
      (.struct "Point" [.int 1, .nilSlice "[]int"])
      (.struct "Point" [.int 1, .nilSlice "[]int"])).1 rfl rfl []).1⟩,
    ⟨by simp, ((equal_passes_on_equal_contents_fails_on_difference .F freshT
      (.slice "[]int" []) (.nilSlice "[]int")).2.1 (by simp)).2.1⟩⟩

/-- C5 fails as stated: two structs with the same contents, each holding the
same non-nil function in its only field, are not deeply equal, so `Equal`
reports them through `Errorf`. -/
theorem equal_fails_on_equal_structs_holding_func :
    (Value.struct "H" [someFunc] = Value.struct "H" [someFunc]) ∧
    deepEqual (.struct "H" [someFunc]) (.struct "H" [someFunc]) = false ∧
    (Equal .E freshT (.struct "H" [someFunc]) (.struct "H" [someFunc]) []).tb.calls
      = [Call.Helper, Call.Helper,
          Call.Errorf "\ngot\t%v\nwant\t%v"
            [Any.val (.struct "H" [someFunc]), Any.val (.struct "H" [someFunc])]] :=
  ⟨rfl, rfl, rfl⟩

/-! ## The error-identity check -/

theorem is_eq_any (target : Link) (err : GoError)
    (hdef : target.comparable = true → ∀ l ∈ err.links, (l.eq target).isSome = true) :
    is target err = some (err.links.any fun l => l.matchesIs target) := by
  induction err with
  | nil => rfl
  | link hd cause ih =>
    have ih2 := ih (fun hc l hl => hdef hc l (by simp [GoError.links, hl]))
    simp only [is, GoError.links, List.any_cons, Link.matchesIs, ih2]
    cases hc : target.comparable
    · simp only [Bool.false_eq_true, if_false, Bool.false_and, Bool.false_or]
      cases (match hd.isM with
        | some f => f target.key
        | none => false) <;> simp [Link.matchesIs, hc]
    · have hsome := hdef hc hd (by simp [GoError.links])
      cases he : hd.eq target with
      | none => simp [he] at hsome
      | some b =>
        cases b
        · simp only [if_true, Bool.true_and]
          cases (match hd.isM with
            | some f => f target.key
            | none => false) <;> simp [Link.matchesIs, hc]
        · simp

theorem errorsIs_eq_matchesTarget (err target : GoError)
    (hdef : comparisonsDefined err target = true) :
    errorsIs err target = some (matchesTarget err target) := by
  cases err with
  | nil => cases target <;> rfl
  | link hd cause =>
    cases target with
    | nil => rfl
    | link tl tcause =>
      simp only [errorsIs, matchesTarget]
      apply is_eq_any
      intro hc l hl
      simp only [comparisonsDefined, hc, Bool.not_true, Bool.false_or, List.all_eq_true] at hdef
      exact hdef l hl

theorem eq_true_iff_same (l t : Link) (h : (l.eq t).isSome = true) :
    l.eq t = some true ↔ l.same t = true := by
  obtain ⟨⟨lt, lv⟩, lc, lb, lm, li, la⟩ := l
  obtain ⟨⟨tt, tv⟩, tc, tb, tm, ti, ta⟩ := t
  simp only [Link.eq, Link.same, Key.mk.injEq, Bool.and_eq_true, decide_eq_true_eq] at h ⊢
  by_cases h1 : lt = tt
  · by_cases h2 : lv = tv
    · cases lb <;> cases tb <;> simp_all
    · simp [h1, h2]
  · simp [h1]

theorem matchesTarget_eq_inChain (err target : GoError)
    (hdef : comparisonsDefined err target = true) (hm : noIsMethod err = true)
    (hc : target.comparable = true) : matchesTarget err target = inChain err target := by
  cases err with
  | nil => cases target <;> rfl
  | link hd cause =>
    cases target with
    | nil => rfl
    | link tl tcause =>
      simp only [GoError.comparable] at hc
      simp only [comparisonsDefined, hc, Bool.not_true, Bool.false_or, List.all_eq_true] at hdef
      simp only [matchesTarget, inChain]
      simp only [noIsMethod, List.all_eq_true, Option.isNone_iff_eq_none] at hm
      apply Bool.eq_iff_iff.mpr
      simp only [List.any_eq_true]
      constructor
      · rintro ⟨l, hl, h⟩
        refine ⟨l, hl, (eq_true_iff_same l tl (hdef l hl)).mp ?_⟩
        simpa [Link.matchesIs, hm l hl, hc] using h
      · rintro ⟨l, hl, h⟩
        refine ⟨l, hl, ?_⟩
        have := (eq_true_iff_same l tl (hdef l hl)).mpr h
        simp [Link.matchesIs, hm l hl, hc, this]

theorem isErr_pass_iff (T : Param) (t : TB) (err target : GoError) (fa : List Any) :
    IsErr T t err target fa = ⟨t.Helper, Status.returned⟩
      ↔ errorsIs err target = some true := by
  cases h : errorsIs err target with
  | none => simp [IsErr, h]
  | some b =>
    cases b
    · simp only [IsErr, h, Bool.not_false, if_true, Option.some.injEq, Bool.false_eq_true,
        iff_false]
      exact fail_ne_pass T t fa _ _
    · simp [IsErr, h]

theorem eq_unboxed_isSome (l t : Link) (h : t.boxed = none) : (l.eq t).isSome = true := by
  simp only [Link.eq, h]
  split
  · split
    · cases l.boxed <;> rfl
    · rfl
  · rfl

/-- C6, as the code has it: for every `err` and `target` on which no comparison
`==` of the search panics, `IsErr(t, err, target)` passes exactly when `err`
and `target` are both nil, or both are non-nil and some link of the cause chain
of `err`, `err` itself included, is `==` to a target of comparable type or has
an `Is` method that accepts the target.  When moreover the target type is
comparable and no link defines an `Is` method this is: the target appears in the
cause chain of `err`; so for a chain where A wraps B and B wraps C, with C of
comparable type and holding no uncomparable value, `IsErr(t, A, C)` passes.
When it does not pass and no override is given, it reports with the default
template and the arguments err, target.  When the comparison of the first link
with the target panics, `IsErr` panics after its helper mark. -/
theorem isErr_passes_iff_link_matches (T : Param) (t : TB) (err target : GoError)
    (fa : List Any) :
    (comparisonsDefined err target = true →
      (IsErr T t err target fa = ⟨t.Helper, Status.returned⟩
        ↔ matchesTarget err target = true)) ∧
    (comparisonsDefined err target = true → noIsMethod err = true →
      target.comparable = true →
      (IsErr T t err target fa = ⟨t.Helper, Status.returned⟩ ↔ inChain err target = true)) ∧
    (∀ (A B C : Link) (rest : GoError), C.comparable = true → C.boxed = none →
      IsErr T t (.link A (.link B (.link C rest))) (.link C rest) fa
        = ⟨t.Helper, Status.returned⟩) ∧
    (comparisonsDefined err target = true → matchesTarget err target = false →
      IsErr T t err target []
        = Param.method T t.Helper.Helper "\ngot\t%v\nwant\t%v"
            [Any.err err, Any.err target]) ∧
    (∀ (hd tl : Link) (cause tcause : GoError), tl.comparable = true → hd.eq tl = none →
      IsErr T t (.link hd cause) (.link tl tcause) fa = ⟨t.Helper, Status.panicked⟩) := by
  refine ⟨?_, ?_, ?_, ?_, ?_⟩
  · intro hdef
    rw [isErr_pass_iff, errorsIs_eq_matchesTarget err target hdef]
    simp
  · intro hdef hm hc
    rw [isErr_pass_iff, errorsIs_eq_matchesTarget err target hdef,
      matchesTarget_eq_inChain err target hdef hm hc]
    simp
  · intro A B C rest hC hb
    have hdef : comparisonsDefined (.link A (.link B (.link C rest))) (.link C rest) = true := by
      simp only [comparisonsDefined, hC, Bool.not_true, Bool.false_or, List.all_eq_true]
      intro l _
      exact eq_unboxed_isSome l C hb
    have hCC : C.eq C = some true := by simp [Link.eq, hb]
    rw [isErr_pass_iff, errorsIs_eq_matchesTarget _ _ hdef]
    simp [matchesTarget, GoError.links, Link.matchesIs, hC, hCC]
  · intro hdef h
    have he := errorsIs_eq_matchesTarget err target hdef
    rw [h] at he
    simp only [IsErr, he]
    rfl
  · intro hd tl cause tcause hc he
    simp [IsErr, errorsIs, is, hc, he]

theorem isErr_passes_iff_link_matches_witness :
    comparisonsDefined chainABC (.link notFound .nil) = true ∧
    noIsMethod chainABC = true ∧ (GoError.link notFound .nil).comparable = true ∧
    (IsErr .E freshT chainABC (.link notFound .nil) [] = ⟨freshT.Helper, Status.returned⟩
      ↔ inChain chainABC (.link notFound .nil) = true) :=
  ⟨rfl, rfl, rfl,
    (isErr_passes_iff_link_matches .E freshT chainABC (.link notFound .nil) []).2.1
      rfl rfl rfl⟩

/-- C6 fails as stated: an error whose `Is` method accepts the target passes
although the target is not in its cause chain; an error of a type that is not
comparable is reported against itself although it is the first link of its own
chain; and an error of comparable type that holds a slice in a field of type
`any` makes the call panic when it is checked against itself. -/
theorem isErr_not_chain_membership :
    (IsErr .E freshT statusErr (.link notFound .nil) [] = ⟨freshT.Helper, Status.returned⟩ ∧
      inChain statusErr (.link notFound .nil) = false) ∧
    ((IsErr .E freshT sliceErr sliceErr []).tb.calls
        = [Call.Helper, Call.Helper,
            Call.Errorf "\ngot\t%v\nwant\t%v" [Any.err sliceErr, Any.err sliceErr]] ∧
      inChain sliceErr sliceErr = true) ∧
    (IsErr .E freshT boxErr boxErr [] = ⟨freshT.Helper, Status.panicked⟩ ∧
      inChain boxErr boxErr = true) :=
  ⟨⟨rfl, rfl⟩, ⟨rfl, rfl⟩, ⟨rfl, rfl⟩⟩

/-! ## The error-type check -/

theorem as_without_as_methods (elem : GoType) (err : GoError) (cur : Option Key)
    (h : noAsMethod err = true) :
    as elem err cur =
      match firstAssignable elem err with
      | some l => (some l.key, true)
      | none => (cur, false) := by
  induction err with
  | nil => rfl
  | link hd cause ih =>
    simp only [noAsMethod, GoError.links, List.all_cons, Bool.and_eq_true,
      Option.isNone_iff_eq_none] at h
    have ih2 := ih (by simpa [noAsMethod] using h.2)
    simp only [as, firstAssignable, GoError.links, List.find?_cons, h.1]
    cases hA : assignableTo hd.key.typ elem
    · simpa [firstAssignable] using ih2
    · simp

theorem firstAssignable_isSome_iff (elem : GoType) (err : GoError) :
    (firstAssignable elem err).isSome = true
      ↔ ∃ l ∈ err.links, assignableTo l.key.typ elem = true := by
  simp [firstAssignable, List.find?_isSome]

theorem asErr_pass_iff (T : Param) (t : TB) (err : GoError) (target : Target)
    (fa : List Any) :
    (AsErr T t err target fa).1 = ⟨t.Helper, Status.returned⟩
      ↔ (errorsAs err target).1 = true := by
  cases h : (errorsAs err target).1
  · simp only [AsErr, h, Bool.not_false, if_true, Bool.false_eq_true, iff_false]
    exact fail_ne_pass T t fa _ _
  · simp [AsErr, h]

theorem asErr_target (T : Param) (t : TB) (err : GoError) (target : Target)
    (fa : List Any) : (AsErr T t err target fa).2 = (errorsAs err target).2 := by
  unfold AsErr
  split <;> rfl

/-- C7, as the code has it: for every `err` none of whose chain links defines an
`As` method and every valid writable slot, `AsErr(t, err, &slot)` passes exactly
when some link of the cause chain of `err` is assignable to the type of the
slot; on pass the slot holds the value of the first such link afterwards; on
failure the slot is left as it was and the failure is reported, with the
default template and the arguments err, target when no override is given. -/
theorem asErr_without_as_methods (T : Param) (t : TB) (err : GoError) (target : Target)
    (fa : List Any) (h : noAsMethod err = true) :
    ((AsErr T t err target fa).1 = ⟨t.Helper, Status.returned⟩
      ↔ ∃ l ∈ err.links, assignableTo l.key.typ target.elem = true) ∧
    (∀ l, firstAssignable target.elem err = some l →
      (AsErr T t err target fa).1 = ⟨t.Helper, Status.returned⟩ ∧
      (AsErr T t err target fa).2 = { target with val := some l.key }) ∧
    (firstAssignable target.elem err = none →
      (AsErr T t err target fa).2 = target ∧
      (AsErr T t err target []).1
        = Param.method T t.Helper.Helper "\ngot\t%T\nwant\t%T"
            [Any.err err, Any.ptr target.addr target.elem] ∧
      (wellFormedOverride fa = true →
        ∃ f a, (AsErr T t err target fa).1 = Param.method T t.Helper.Helper f a)) := by
  have has := as_without_as_methods target.elem err target.val h
  refine ⟨?_, ?_, ?_⟩
  · rw [asErr_pass_iff, ← firstAssignable_isSome_iff]
    simp only [errorsAs, has]
    cases firstAssignable target.elem err <;> simp
  · intro l hl
    rw [asErr_pass_iff, asErr_target]
    simp [errorsAs, has, hl]
  · intro hn
    have hres : (errorsAs err target).1 = false := by simp [errorsAs, has, hn]
    refine ⟨?_, ?_, ?_⟩
    · rw [asErr_target]
      simp [errorsAs, has, hn]
    · simp only [AsErr, hres]
      rfl
    · intro hfa
      exact failing_reports T fa _ (FailingCall.asErr err target hres) hfa t

theorem asErr_without_as_methods_witness :
    (noAsMethod wrappedNotFound = true ∧
      firstAssignable notFoundSlot.elem wrappedNotFound = some notFound ∧
      (AsErr .E freshT wrappedNotFound notFoundSlot []).1 = ⟨freshT.Helper, Status.returned⟩ ∧
      (AsErr .E freshT wrappedNotFound notFoundSlot []).2
        = { notFoundSlot with val := some notFound.key }) ∧
    (firstAssignable timeoutSlot.elem wrappedNotFound = none ∧
      (AsErr .E freshT wrappedNotFound timeoutSlot []).2 = timeoutSlot ∧
      (AsErr .E freshT wrappedNotFound timeoutSlot []).1
        = Param.method .E freshT.Helper.Helper "\ngot\t%T\nwant\t%T"
            [Any.err wrappedNotFound, Any.ptr timeoutSlot.addr timeoutSlot.elem]) :=
  ⟨⟨rfl, rfl,
    (asErr_without_as_methods .E freshT wrappedNotFound notFoundSlot [] rfl).2.1 notFound rfl⟩,
    ⟨rfl,
      ((asErr_without_as_methods .E freshT wrappedNotFound timeoutSlot [] rfl).2.2 rfl).1,
      ((asErr_without_as_methods .E freshT wrappedNotFound timeoutSlot [] rfl).2.2 rfl).2.1⟩⟩

/-- C7 fails as stated: an error whose `As` method accepts the target passes
although no link of its chain is assignable to the type of the slot, and the
slot then holds what the method wrote, which is the value of no link. -/
theorem asErr_not_only_assignability :
    (AsErr .E freshT convertibleErr notFoundSlot []).1 = ⟨freshT.Helper, Status.returned⟩ ∧
    (convertibleErr.links.any fun l => assignableTo l.key.typ notFoundSlot.elem) = false ∧
    (AsErr .E freshT convertibleErr notFoundSlot []).2.val = some ⟨"*NotFound", 6⟩ ∧
    (convertibleErr.links.any fun l => decide (l.key = ⟨"*NotFound", 6⟩)) = false :=
  ⟨rfl, rfl, rfl, rfl⟩

end Assert
